import Mathlib

/-!
Verification of the PROOF agent-marketplace repository: a shallow embedding
of the Seller node's task repository, rate-limit middleware, x402 payment
middleware and the marketplace registration repository, with theorems about
the behaviours the specification describes.

Conventions of the embedding:
* Python dicts become association lists `List (String × α)`; insertion
  order is list order, as in CPython.
* Timestamps (`datetime`, `time.time()`) become `Int` values; ISO
  formatting of timestamps is not modelled.
* Python truthiness is modelled explicitly where the source relies on it
  (`x or y` on integers, strings and lists).
* JSON-like Python values (task results) are modelled by the inductive
  `JsonV`.
-/

namespace Proof

/-- Association-list lookup, first occurrence wins (CPython dict lookup). -/
def alookup {α : Type} : List (String × α) → String → Option α
  | [], _ => none
  | (k', v) :: rest, k => if k' = k then some v else alookup rest k

/-- Association-list assignment: replace the first binding of the key, or
append a new binding (CPython `d[k] = v`). -/
def aset {α : Type} : List (String × α) → String → α → List (String × α)
  | [], k, v => [(k, v)]
  | (k', v') :: rest, k, v =>
    if k' = k then (k, v) :: rest else (k', v') :: aset rest k v

/-- Modify the first binding of a key in place, if present
(CPython `d[k].field = ...` on an existing entry). -/
def amod {α : Type} : List (String × α) → String → (α → α) → List (String × α)
  | [], _, _ => []
  | (k', v) :: rest, k, f =>
    if k' = k then (k', f v) :: rest else (k', v) :: amod rest k f

theorem alookup_aset {α : Type} (m : List (String × α)) (k k2 : String) (v : α) :
    alookup (aset m k v) k2 = if k = k2 then some v else alookup m k2 := by
  induction m with
  | nil => simp [aset, alookup]
  | cons hd tl ih =>
    obtain ⟨k', v'⟩ := hd
    by_cases h1 : k' = k
    · subst h1
      simp only [aset, if_pos rfl, alookup]
      by_cases h2 : k' = k2 <;> simp [h2]
    · simp only [aset, if_neg h1, alookup, ih]
      by_cases h2 : k' = k2
      · subst h2
        have h1' : ¬ k = k' := fun h => h1 h.symm
        simp [h1']
      · simp [h2]

theorem alookup_amod {α : Type} (m : List (String × α)) (k k2 : String) (f : α → α) :
    alookup (amod m k f) k2 = if k = k2 then (alookup m k).map f else alookup m k2 := by
  induction m with
  | nil => simp [amod, alookup]
  | cons hd tl ih =>
    obtain ⟨k', v'⟩ := hd
    by_cases h1 : k' = k
    · subst h1
      simp only [amod, if_pos rfl, alookup]
      by_cases h2 : k' = k2 <;> simp [h2]
    · simp only [amod, if_neg h1, alookup, ih]
      by_cases h2 : k' = k2
      · subst h2
        have h1' : ¬ k = k' := fun h => h1 h.symm
        simp [h1', alookup, h1]
      · simp [h2, alookup, h1]

/-- JSON-like Python value (task result payloads). -/
inductive JsonV : Type
  | null : JsonV
  | bool (b : Bool) : JsonV
  | num (n : Int) : JsonV
  | str (s : String) : JsonV
  | arr (xs : List JsonV) : JsonV
  | obj (fields : List (String × JsonV)) : JsonV

/-- Python truthiness of a JSON-like value (`if self.result`). -/
def JsonV.truthy : JsonV → Bool
  | .null => false
  | .bool b => b
  | .num n => n != 0
  | .str s => s != ""
  | .arr xs => !xs.isEmpty
  | .obj fs => !fs.isEmpty

/-- Key membership in a JSON object field list (`"tools_used" not in data`). -/
def jsonHasKey (fields : List (String × JsonV)) (k : String) : Bool :=
  fields.any (fun p => p.1 == k)

/-- `ExecutionRequest` (xy_market.models.execution): only the fields the
claims touch are carried; context/secrets are opaque here. -/
structure ExecutionRequest where
  task_description : String
deriving DecidableEq

/-- Task error dict: every call site of `update_task`/`cleanup_expired_tasks`
builds `{"message": ..., "type": ...}`. -/
structure TaskError where
  message : String
  type : String
deriving DecidableEq

/-- `Task` (seller_template.db.models.Task). Timestamps are `Int`. -/
structure Task where
  task_id : String
  buyer_secret : String
  status : String
  created_at : Int
  expires_at : Int
  execution_request : ExecutionRequest
  result : JsonV
  error : Option TaskError
  execution_time_ms : Option Int
  tools_used : List String

/-- `ExecutionResult` (xy_market.models.execution.ExecutionResult): the task
envelope returned by creation and polling responses. -/
structure ExecutionResult where
  task_id : String
  buyer_secret : String
  status : String
  data : JsonV
  execution_time_ms : Option Int
  error : Option TaskError
  created_at : Int
  deadline_at : Int

/-- `Task.to_execution_result` (seller_template.db.models): `data` is the
result if truthy else an empty dict, with `tools_used` inserted when the
dict lacks that key; `buyer_secret` is copied from the stored task. -/
def toExecutionResult (t : Task) : ExecutionResult :=
  let data0 := if t.result.truthy then t.result else JsonV.obj []
  let data :=
    match data0 with
    | JsonV.obj fields =>
      if jsonHasKey fields "tools_used" then JsonV.obj fields
      else JsonV.obj (fields ++ [("tools_used", JsonV.arr (t.tools_used.map JsonV.str))])
    | other => other
  { task_id := t.task_id
    buyer_secret := t.buyer_secret
    status := t.status
    data := data
    execution_time_ms := t.execution_time_ms
    error := t.error
    created_at := t.created_at
    deadline_at := t.expires_at }

/-- The in-memory task table (`_DATABASE["tasks"]`). -/
abbrev TaskMap : Type := List (String × Task)

/-- Python `deadline_seconds or default`: `None` and `0` are falsy, so both
fall back to the default deadline. -/
def pyOrInt (o : Option Int) (d : Int) : Int :=
  match o with
  | none => d
  | some v => if v = 0 then d else v

/-- `TaskRepository.create_task`: compute the deadline via Python `or`,
set `expires_at = created_at + deadline`, insert a fresh `in_progress`
task. Fresh identifiers are passed in (uuid4 in the source). -/
def createTask (m : TaskMap) (defaultDeadline : Int) (req : ExecutionRequest)
    (deadlineSeconds : Option Int) (now : Int) (freshId freshSecret : String) :
    TaskMap × String × String :=
  let deadline := pyOrInt deadlineSeconds defaultDeadline
  let t : Task :=
    { task_id := freshId
      buyer_secret := freshSecret
      status := "in_progress"
      created_at := now
      expires_at := now + deadline
      execution_request := req
      result := JsonV.null
      error := none
      execution_time_ms := none
      tools_used := [] }
  (aset m freshId t, freshId, freshSecret)

/-- `TaskRepository.get_task`: return the execution result when the id is
present and the stored secret matches, else `None`. -/
def getTask (m : TaskMap) (taskId buyerSecret : String) : Option ExecutionResult :=
  match alookup m taskId with
  | some t => if t.buyer_secret = buyerSecret then some (toExecutionResult t) else none
  | none => none

/-- `TaskRepository.update_task`: if the id is present, overwrite status,
result, error, execution_time_ms and tools_used (`tools_used or []`);
unknown ids are silent no-ops. -/
def updateTask (m : TaskMap) (taskId status : String) (result : JsonV)
    (error : Option TaskError) (executionTimeMs : Option Int)
    (toolsUsed : Option (List String)) : TaskMap :=
  amod m taskId (fun t =>
    { t with
      status := status
      result := result
      error := error
      execution_time_ms := executionTimeMs
      tools_used := toolsUsed.getD [] })

/-- The terminal state `cleanup_expired_tasks` writes into an expired task. -/
def expireTask (t : Task) : Task :=
  { t with
    status := "failed"
    error := some { message := "Task deadline exceeded", type := "DeadlineExceeded" } }

/-- `TaskRepository.cleanup_expired_tasks`: mark every `in_progress` task
whose deadline has passed as failed with a DeadlineExceeded error and
return the number of tasks transitioned. -/
def cleanupExpiredTasks : TaskMap → Int → TaskMap × Nat
  | [], _ => ([], 0)
  | (k, t) :: rest, now =>
    let r := cleanupExpiredTasks rest now
    if t.status = "in_progress" ∧ now ≥ t.expires_at then
      ((k, expireTask t) :: r.1, r.2 + 1)
    else
      ((k, t) :: r.1, r.2)

theorem alookup_cleanup (m : TaskMap) (now : Int) (k : String) :
    alookup (cleanupExpiredTasks m now).1 k =
      (alookup m k).map (fun t =>
        if t.status = "in_progress" ∧ now ≥ t.expires_at then expireTask t else t) := by
  induction m with
  | nil => simp [cleanupExpiredTasks, alookup]
  | cons hd tl ih =>
    obtain ⟨k', t⟩ := hd
    by_cases h1 : k' = k
    · subst h1
      by_cases h2 : t.status = "in_progress" ∧ now ≥ t.expires_at <;>
        simp [cleanupExpiredTasks, alookup, h2]
    · by_cases h2 : t.status = "in_progress" ∧ now ≥ t.expires_at <;>
        simp [cleanupExpiredTasks, alookup, h1, h2, ih]

/-- The operations the running system performs on the task table: creation
of a fresh task (execute endpoint), the background worker's success and
failure updates (`_execute_task_async`), and the janitor sweep. -/
inductive SysStep : TaskMap → TaskMap → Prop
  | create (m : TaskMap) (dd : Int) (req : ExecutionRequest) (ds : Option Int)
      (now : Int) (fid fsec : String) (hfresh : alookup m fid = none) :
      SysStep m (createTask m dd req ds now fid fsec).1
  | workerDone (m : TaskMap) (id : String) (res : JsonV) (ms : Int)
      (tools : List String) :
      SysStep m (updateTask m id "done" res none (some ms) (some tools))
  | workerFail (m : TaskMap) (id : String) (msg ty : String) (ms : Int) :
      SysStep m (updateTask m id "failed" JsonV.null (some ⟨msg, ty⟩) (some ms) none)
  | sweep (m : TaskMap) (now : Int) :
      SysStep m (cleanupExpiredTasks m now).1

/-- One system operation keeps a terminal task present and terminal. -/
theorem sysStep_terminal_preserved {m m' : TaskMap} (h : SysStep m m')
    (id : String) (t : Task) (ht : alookup m id = some t)
    (hterm : t.status = "done" ∨ t.status = "failed") :
    ∃ t', alookup m' id = some t' ∧ (t'.status = "done" ∨ t'.status = "failed") := by
  cases h with
  | create dd req ds now fid fsec hfresh =>
    refine ⟨t, ?_, hterm⟩
    rw [createTask]
    rw [alookup_aset]
    by_cases hfid : fid = id
    · subst hfid
      rw [hfresh] at ht
      exact absurd ht (by simp)
    · simp [hfid, ht]
  | workerDone uid res ms tools =>
    rw [updateTask]
    by_cases huid : uid = id
    · subst huid
      have hmap : alookup (amod m uid (fun t =>
            { t with
              status := "done"
              result := res
              error := none
              execution_time_ms := some ms
              tools_used := (some tools).getD [] })) uid
          = some { t with
              status := "done"
              result := res
              error := none
              execution_time_ms := some ms
              tools_used := (some tools).getD [] } := by
        rw [alookup_amod, if_pos rfl, ht]
        rfl
      exact ⟨_, hmap, Or.inl rfl⟩
    · exact ⟨t, by rw [alookup_amod, if_neg huid, ht], hterm⟩
  | workerFail uid msg ty ms =>
    rw [updateTask]
    by_cases huid : uid = id
    · subst huid
      have hmap : alookup (amod m uid (fun t =>
            { t with
              status := "failed"
              result := JsonV.null
              error := some ⟨msg, ty⟩
              execution_time_ms := some ms
              tools_used := (none : Option (List String)).getD [] })) uid
          = some { t with
              status := "failed"
              result := JsonV.null
              error := some ⟨msg, ty⟩
              execution_time_ms := some ms
              tools_used := (none : Option (List String)).getD [] } := by
        rw [alookup_amod, if_pos rfl, ht]
        rfl
      exact ⟨_, hmap, Or.inr rfl⟩
    · exact ⟨t, by rw [alookup_amod, if_neg huid, ht], hterm⟩
  | sweep now =>
    rw [alookup_cleanup, ht]
    by_cases hc : t.status = "in_progress" ∧ now ≥ t.expires_at
    · exact ⟨expireTask t, by simp [hc], Or.inr rfl⟩
    · exact ⟨t, by simp [hc], hterm⟩

/-- Along any chain of system operations a terminal task stays terminal. -/
theorem sysSteps_terminal_preserved {m m' : TaskMap}
    (h : Relation.ReflTransGen SysStep m m')
    (id : String) (t : Task) (ht : alookup m id = some t)
    (hterm : t.status = "done" ∨ t.status = "failed") :
    ∃ t', alookup m' id = some t' ∧ (t'.status = "done" ∨ t'.status = "failed") := by
  induction h with
  | refl => exact ⟨t, ht, hterm⟩
  | tail hab hbc ih =>
    obtain ⟨t'', ht'', hterm''⟩ := ih
    exact sysStep_terminal_preserved hbc id t'' ht'' hterm''

/-- A sample execution request used in concrete instances. -/
def sampleReq : ExecutionRequest := ⟨"hello"⟩

/-- A concrete `in_progress` task whose deadline has already passed. -/
def inProgressTask : Task :=
  { task_id := "t1"
    buyer_secret := "s1"
    status := "in_progress"
    created_at := 0
    expires_at := 0
    execution_request := sampleReq
    result := JsonV.null
    error := none
    execution_time_ms := none
    tools_used := [] }

/-- A concrete completed task. -/
def doneTask : Task :=
  { task_id := "t1"
    buyer_secret := "s1"
    status := "done"
    created_at := 0
    expires_at := 300
    execution_request := sampleReq
    result := JsonV.str "ok"
    error := none
    execution_time_ms := some 5
    tools_used := [] }

/-- The table after the janitor sweeps the expired in-progress task. -/
def c1SweepMap : TaskMap := (cleanupExpiredTasks [("t1", inProgressTask)] 0).1

/-- The table after a late worker-success update lands on the swept task. -/
def c1OverwriteMap : TaskMap :=
  updateTask c1SweepMap "t1" "done" (JsonV.str "late") none (some 9) (some [])

/-- C1 counterexample: the janitor sweep puts the task in the terminal state
`failed` with a DeadlineExceeded error, and a subsequent worker success
update — a system operation — overwrites the terminal result/error fields
(status flips `failed → done`, error is cleared). Terminal result/error are
therefore not immutable. -/
theorem c1_terminal_fields_mutate_cex :
    SysStep [("t1", inProgressTask)] c1SweepMap ∧
    SysStep c1SweepMap c1OverwriteMap ∧
    (alookup c1SweepMap "t1").map Task.status = some "failed" ∧
    (alookup c1SweepMap "t1").map Task.error
      = some (some { message := "Task deadline exceeded", type := "DeadlineExceeded" }) ∧
    (alookup c1OverwriteMap "t1").map Task.status = some "done" ∧
    (alookup c1OverwriteMap "t1").map Task.error = some none :=
  ⟨SysStep.sweep _ 0, SysStep.workerDone _ "t1" (JsonV.str "late") 9 [],
    rfl, rfl, rfl, rfl⟩

/-- C1 (amended): along every chain of system operations (task creation with
a fresh id, worker success/failure updates, janitor sweeps), a task whose
status is terminal (`done` or `failed`) keeps a terminal status and in
particular never returns to `in_progress`; however terminal result/error
fields may still be overwritten by a later terminal update
(see the counterexample). -/
theorem c1_terminal_status_absorbing (m m' : TaskMap)
    (h : Relation.ReflTransGen SysStep m m') (id : String) (t t' : Task)
    (ht : alookup m id = some t) (hterm : t.status = "done" ∨ t.status = "failed")
    (ht' : alookup m' id = some t') :
    (t'.status = "done" ∨ t'.status = "failed") ∧ t'.status ≠ "in_progress" := by
  obtain ⟨t'', ht'', hterm''⟩ := sysSteps_terminal_preserved h id t ht hterm
  rw [ht'] at ht''
  have heq : t' = t'' := by injection ht''
  subst heq
  refine ⟨hterm'', ?_⟩
  rcases hterm'' with h1 | h1 <;> rw [h1] <;> decide

/-- The table after re-updating an already-done task. -/
def c1NextMap : TaskMap :=
  updateTask [("t1", doneTask)] "t1" "done" (JsonV.str "ok2") none (some 7) (some [])

/-- The task stored in `c1NextMap`. -/
def c1NextTask : Task :=
  { doneTask with
    result := JsonV.str "ok2"
    execution_time_ms := some 7
    tools_used := [] }

/-- Witness for C1 at a concrete chain of one worker update. -/
theorem c1_terminal_status_absorbing_witness :
    alookup [("t1", doneTask)] "t1" = some doneTask ∧
    ((c1NextTask.status = "done" ∨ c1NextTask.status = "failed") ∧
      c1NextTask.status ≠ "in_progress") :=
  ⟨rfl,
    c1_terminal_status_absorbing [("t1", doneTask)] c1NextMap
      (Relation.ReflTransGen.single
        (SysStep.workerDone [("t1", doneTask)] "t1" (JsonV.str "ok2") 7 []))
      "t1" doneTask c1NextTask rfl (Or.inl rfl) rfl⟩

/-- True when the id is present but the supplied secret differs from the
stored `buyer_secret` (used to state C2). -/
def secretMismatch (m : TaskMap) (id secret : String) : Bool :=
  match alookup m id with
  | some t => t.buyer_secret != secret
  | none => false

/-- C2: `get_task` returns `None` exactly when the task id is absent or the
supplied secret does not match the stored `buyer_secret`, and in both of
those cases the returned value is identical (`None`): a wrong secret is
externally indistinguishable from an unknown id. -/
theorem c2_get_task_not_found_iff (m : TaskMap) (id secret id2 s2 : String) :
    (getTask m id secret = none ↔
      (alookup m id = none ∨ secretMismatch m id secret = true)) ∧
    (secretMismatch m id secret = true → alookup m id2 = none →
      getTask m id secret = getTask m id2 s2) := by
  constructor
  · cases hl : alookup m id with
    | none => simp [getTask, hl, secretMismatch]
    | some t =>
      by_cases hs : t.buyer_secret = secret <;>
        simp [getTask, hl, secretMismatch, hs]
  · intro hmm hl2
    cases hl : alookup m id with
    | none => simp [secretMismatch, hl] at hmm
    | some t =>
      have hs : ¬ t.buyer_secret = secret := by
        simpa [secretMismatch, hl] using hmm
      simp [getTask, hl, hs, hl2]

/-- Witness for C2 at a concrete table: wrong secret and unknown id produce
the same `None`. -/
theorem c2_get_task_not_found_iff_witness :
    secretMismatch [("t1", doneTask)] "t1" "bad" = true ∧
    getTask [("t1", doneTask)] "t1" "bad" = getTask [("t1", doneTask)] "zz" "any" :=
  ⟨by decide,
    (c2_get_task_not_found_iff [("t1", doneTask)] "t1" "bad" "zz" "any").2
      (by decide) (by rfl)⟩

/-- C3 counterexample: the polling response of a completed task (status
`done`, not the initial creation response) carries the stored
`buyer_secret` value in its body — `Task.to_execution_result` copies it and
`GET /tasks/{task_id}` returns the `ExecutionResult` unchanged. -/
theorem c3_polling_includes_secret_cex :
    (getTask [("t1", doneTask)] "t1" "s1").map ExecutionResult.status = some "done" ∧
    (getTask [("t1", doneTask)] "t1" "s1").map ExecutionResult.buyer_secret = some "s1" :=
  ⟨rfl, rfl⟩

/-- C3 (amended): every successful polling response includes the
`buyer_secret` — `to_execution_result` copies the stored secret into the
envelope, and `get_task` only succeeds when the supplied secret equals the
stored one, so the response echoes exactly the supplied secret. -/
theorem c3_polling_echoes_secret (m : TaskMap) (id secret : String) (t : Task) :
    ((getTask m id secret).isSome = true →
      (getTask m id secret).map ExecutionResult.buyer_secret = some secret) ∧
    (toExecutionResult t).buyer_secret = t.buyer_secret := by
  refine ⟨?_, rfl⟩
  intro hsome
  cases hl : alookup m id with
  | none => simp [getTask, hl] at hsome
  | some t0 =>
    by_cases hs : t0.buyer_secret = secret
    · simp [getTask, hl, hs, toExecutionResult]
    · simp [getTask, hl, hs] at hsome

/-- Witness for C3 at a concrete polling call. -/
theorem c3_polling_echoes_secret_witness :
    (getTask [("t1", doneTask)] "t1" "s1").isSome = true ∧
    (getTask [("t1", doneTask)] "t1" "s1").map ExecutionResult.buyer_secret = some "s1" :=
  ⟨rfl, (c3_polling_echoes_secret [("t1", doneTask)] "t1" "s1" doneTask).1 rfl⟩

/-- The table created with a deadline override of 0 seconds. -/
def c8ZeroMap : TaskMap := (createTask [] 300 sampleReq (some 0) 1000 "tid" "sec").1

/-- C8 counterexample: a deadline override of 0 does not take effect —
Python's `deadline_seconds or default` treats 0 as absent — so
`expires_at = created_at + 300`, the task is not expired immediately, and
the next janitor sweep returns 0, leaving the task `in_progress`. -/
theorem c8_deadline_zero_cex :
    (alookup c8ZeroMap "tid").map Task.created_at = some 1000 ∧
    (alookup c8ZeroMap "tid").map Task.expires_at = some 1300 ∧
    ¬ ((1300 : Int) = 1000 + 0) ∧
    (cleanupExpiredTasks c8ZeroMap 1000).2 = 0 ∧
    ¬ ((0 : Nat) = 1) ∧
    (alookup (cleanupExpiredTasks c8ZeroMap 1000).1 "tid").map Task.status
      = some "in_progress" :=
  ⟨rfl, rfl, by decide, rfl, by decide, rfl⟩

/-- C8 (amended): `expires_at = created_at + deadline`, where the deadline
is the caller-supplied override when it is given and nonzero and the
configured default otherwise (an override of 0 falls back to the default);
a task created with a negative override (the repo's own tests use -1) is
expired immediately: the next sweep returns count 1 and the task becomes
`failed` with error type DeadlineExceeded. -/
theorem c8_expires_at_deadline (m : TaskMap) (dd : Int) (req : ExecutionRequest)
    (now : Int) (fid fsec : String) (d : Int) :
    (d ≠ 0 → (alookup (createTask m dd req (some d) now fid fsec).1 fid).map Task.expires_at
        = some (now + d)) ∧
    ((alookup (createTask m dd req none now fid fsec).1 fid).map Task.expires_at
        = some (now + dd)) ∧
    ((alookup (createTask m dd req (some 0) now fid fsec).1 fid).map Task.expires_at
        = some (now + dd)) ∧
    ((alookup (createTask m dd req (some d) now fid fsec).1 fid).map Task.created_at
        = some now) ∧
    (d < 0 →
      (cleanupExpiredTasks (createTask [] dd req (some d) now fid fsec).1 now).2 = 1 ∧
      (alookup (cleanupExpiredTasks (createTask [] dd req (some d) now fid fsec).1 now).1
          fid).map Task.status = some "failed" ∧
      (alookup (cleanupExpiredTasks (createTask [] dd req (some d) now fid fsec).1 now).1
          fid).map Task.error
        = some (some { message := "Task deadline exceeded", type := "DeadlineExceeded" })) := by
  refine ⟨?_, ?_, ?_, ?_, ?_⟩
  · intro hd
    simp [createTask, alookup_aset, pyOrInt, hd]
  · simp [createTask, alookup_aset, pyOrInt]
  · simp [createTask, alookup_aset, pyOrInt]
  · simp [createTask, alookup_aset]
  · intro hd
    have hd0 : ¬ d = 0 := by omega
    have h1 : (createTask [] dd req (some d) now fid fsec).1
        = [(fid,
            { task_id := fid
              buyer_secret := fsec
              status := "in_progress"
              created_at := now
              expires_at := now + d
              execution_request := req
              result := JsonV.null
              error := none
              execution_time_ms := none
              tools_used := [] })] := by
      simp [createTask, aset, pyOrInt, hd0]
    rw [h1]
    have hge : now ≥ now + d := by omega
    simp [cleanupExpiredTasks, hge, expireTask, alookup]

/-- Witness for C8 at the concrete inputs of the deadline-expiry scenario
(with the override -1 that the repository's tests use). -/
theorem c8_expires_at_deadline_witness :
    (alookup (createTask [] 300 sampleReq (some (-1)) 1000 "tid" "sec").1 "tid").map
        Task.expires_at = some (1000 + (-1)) ∧
    (cleanupExpiredTasks (createTask [] 300 sampleReq (some (-1)) 1000 "tid" "sec").1
        1000).2 = 1 :=
  ⟨(c8_expires_at_deadline [] 300 sampleReq 1000 "tid" "sec" (-1)).1 (by decide),
    ((c8_expires_at_deadline [] 300 sampleReq 1000 "tid" "sec" (-1)).2.2.2.2
      (by decide)).1⟩

/-! ### Rate-limit middleware (xy_market.middleware.ratelimit) -/

/-- The counter map `key -> (count, window_start_timestamp)`. -/
abbrev CMap : Type := List (String × (Nat × Int))

/-- `RateLimitMiddleware._check_rate_limit`: fixed-window counter update.
Returns whether the request is allowed together with the updated map. -/
def checkRateLimit (counters : CMap) (key : String) (limit : Nat)
    (windowSeconds now : Int) : Bool × CMap :=
  let cw := (alookup counters key).getD (0, now)
  if now - cw.2 > windowSeconds then (true, aset counters key (1, now))
  else if cw.1 ≥ limit then (false, counters)
  else (true, aset counters key (cw.1 + 1, cw.2))

/-- C10: a denied request — key in its current window with
`count ≥ limit` — leaves the whole counter map unchanged: the deny branch
neither increments the count nor moves the window start. -/
theorem c10_denied_leaves_counters_unchanged (counters : CMap) (key : String)
    (limit : Nat) (w now : Int) (c : Nat) (ws : Int)
    (hl : alookup counters key = some (c, ws)) (hin : ¬ (now - ws > w))
    (hc : c ≥ limit) :
    checkRateLimit counters key limit w now = (false, counters) := by
  simp [checkRateLimit, hl, hin, hc]

/-- Witness for C10 at a saturated concrete counter. -/
theorem c10_denied_leaves_counters_unchanged_witness :
    checkRateLimit [("k", (3, 0))] "k" 3 60 30 = (false, [("k", (3, 0))]) :=
  c10_denied_leaves_counters_unchanged [("k", (3, 0))] "k" 3 60 30 3 0
    rfl (by decide) (by decide)

/-! ### Pattern lookup (`RateLimitMiddleware._get_limit`)

The source applies Python `re.match` to patterns containing a
metacharacter.  The regex engine is external library code; it is modelled
here for the fragment the configuration patterns use: literal characters,
an optional leading `^` anchor, and a postfix `*` (zero or more of the
preceding character).  `matchFuel` is Python `re.match` (the pattern must
match a prefix of the string, anchored at the start); `fullFuel` is
full-match semantics (`re.fullmatch`), which is what the spec claims. -/

/-- One regex token: a literal character, optionally starred. -/
structure RTok where
  c : Char
  star : Bool
deriving DecidableEq

/-- Tokenize the modelled regex fragment. -/
def parseToks : List Char → List RTok
  | [] => []
  | [c] => [⟨c, false⟩]
  | c :: c2 :: rest =>
    if c2 = '*' then ⟨c, true⟩ :: parseToks rest
    else ⟨c, false⟩ :: parseToks (c2 :: rest)

/-- Drop a leading `^` anchor (redundant under match-at-start semantics). -/
def dropCaret : List Char → List Char
  | '^' :: rest => rest
  | l => l

/-- Match-at-start semantics (`re.match`): the tokens must match a prefix
of the input.  Fuel-based recursion so the kernel can evaluate it. -/
def matchFuel : Nat → List RTok → List Char → Bool
  | 0, _, _ => false
  | _ + 1, [], _ => true
  | f + 1, ⟨c, false⟩ :: ts, xs =>
    match xs with
    | [] => false
    | x :: xs' => c == x && matchFuel f ts xs'
  | f + 1, ⟨c, true⟩ :: ts, xs =>
    matchFuel f ts xs ||
      (match xs with
       | [] => false
       | x :: xs' => c == x && matchFuel f (⟨c, true⟩ :: ts) xs')

/-- Full-match semantics (`re.fullmatch`): the tokens must consume the
whole input. -/
def fullFuel : Nat → List RTok → List Char → Bool
  | 0, _, _ => false
  | _ + 1, [], xs => xs.isEmpty
  | f + 1, ⟨c, false⟩ :: ts, xs =>
    match xs with
    | [] => false
    | x :: xs' => c == x && fullFuel f ts xs'
  | f + 1, ⟨c, true⟩ :: ts, xs =>
    fullFuel f ts xs ||
      (match xs with
       | [] => false
       | x :: xs' => c == x && fullFuel f (⟨c, true⟩ :: ts) xs')

/-- Python `re.match(pattern, path)` on the modelled fragment. -/
def pyMatch (pattern path : String) : Bool :=
  let ts := parseToks (dropCaret pattern.toList)
  matchFuel (ts.length + path.toList.length + 1) ts path.toList

/-- Python `re.fullmatch(pattern, path)` on the modelled fragment. -/
def pyFullmatch (pattern path : String) : Bool :=
  let ts := parseToks (dropCaret pattern.toList)
  fullFuel (ts.length + path.toList.length + 1) ts path.toList

/-- The source's metacharacter test:
`"^" in pattern or "\\" in pattern or "{" in pattern or "*" in pattern`. -/
def containsMeta (pattern : String) : Bool :=
  pattern.toList.any (fun c => c == '^' || c == '\\' || c == '\x7b' || c == '*')

/-- `path.startswith(pattern)` (pattern, then path). -/
def prefMatches : List Char → List Char → Bool
  | [], _ => true
  | _ :: _, [] => false
  | p :: ps, x :: xs => p == x && prefMatches ps xs

/-- Python `path.startswith(pattern)`. -/
def pyStartsWith (path pattern : String) : Bool :=
  prefMatches pattern.toList path.toList

/-- The iteration of `RateLimitMiddleware._get_limit` over the limits dict:
regex patterns use `re.match`, other patterns use prefix matching; the
first matching rule wins. -/
def getLimitLoop : List (String × Nat) → String → Option Nat
  | [], _ => none
  | (pattern, limit) :: rest, path =>
    if containsMeta pattern then
      if pyMatch pattern path then some limit else getLimitLoop rest path
    else if pyStartsWith path pattern then some limit
    else getLimitLoop rest path

/-- `RateLimitMiddleware._get_limit`: exact key match first, then the
pattern iteration; `none` means no limit (pass through). -/
def getLimit (limits : List (String × Nat)) (path : String) : Option Nat :=
  match alookup limits path with
  | some l => some l
  | none => getLimitLoop limits path

/-- The lookup the spec's C7 sentence describes: identical, except that a
metacharacter pattern is applied with full-match semantics. -/
def getLimitSpecFull (limits : List (String × Nat)) (path : String) : Option Nat :=
  match alookup limits path with
  | some l => some l
  | none =>
    (limits.find? (fun pl =>
      if containsMeta pl.1 then pyFullmatch pl.1 path
      else pyStartsWith path pl.1)).map (fun pl => pl.2)

/-- The amended C7 lookup: exact match first, then first-match iteration
in insertion order, metacharacter patterns applied with match-at-start
(`re.match`) semantics, plain patterns as prefixes. -/
def getLimitSpecMatchAtStart (limits : List (String × Nat)) (path : String) :
    Option Nat :=
  match alookup limits path with
  | some l => some l
  | none =>
    (limits.find? (fun pl =>
      if containsMeta pl.1 then pyMatch pl.1 path
      else pyStartsWith path pl.1)).map (fun pl => pl.2)

theorem getLimitLoop_eq_find (limits : List (String × Nat)) (path : String) :
    getLimitLoop limits path
      = (limits.find? (fun pl =>
          if containsMeta pl.1 then pyMatch pl.1 path
          else pyStartsWith path pl.1)).map (fun pl => pl.2) := by
  induction limits with
  | nil => rfl
  | cons hd tl ih =>
    obtain ⟨pattern, limit⟩ := hd
    by_cases h1 : containsMeta pattern = true
    · by_cases h2 : pyMatch pattern path = true <;>
        simp [getLimitLoop, List.find?, h1, h2, ih]
    · by_cases h2 : pyStartsWith path pattern = true <;>
        simp [getLimitLoop, List.find?, h1, h2, ih]

/-- C7 counterexample: the pattern `/x*` (metacharacter `*`) against the
path `/xy`.  `re.match` accepts (it matches the prefix `/x`), so the code
returns the limit 5; full-match semantics — what the claim states — would
reject and yield no limit. -/
theorem c7_fullmatch_cex :
    getLimit [("/x*", 5)] "/xy" = some 5 ∧
    getLimitSpecFull [("/x*", 5)] "/xy" = none ∧
    ¬ (getLimit [("/x*", 5)] "/xy" = getLimitSpecFull [("/x*", 5)] "/xy") := by
  decide

/-- C7 (amended): `_get_limit` tries an exact pattern match first;
otherwise it iterates patterns in insertion order, applying a pattern with
a metacharacter (`^`, backslash, opening brace, `*`) as a regex with
match-at-start (`re.match`) semantics — not full-match — and any other
pattern as a prefix; the first matching rule wins and a path matching no
rule yields no limit. -/
theorem c7_get_limit_first_match (limits : List (String × Nat)) (path : String) :
    getLimit limits path = getLimitSpecMatchAtStart limits path := by
  rw [getLimit, getLimitSpecMatchAtStart]
  cases alookup limits path with
  | some l => rfl
  | none => simpa using getLimitLoop_eq_find limits path

/-- Run the limiter over a trace of request times for one key, recording
each request's time and whether it was allowed. -/
def runLimiter (key : String) (limit : Nat) (w : Int) :
    CMap → List Int → List (Int × Bool)
  | _, [] => []
  | counters, t :: ts =>
    let r := checkRateLimit counters key limit w t
    (t, r.1) :: runLimiter key limit w r.2 ts

/-- The times of the accepted requests of a run. -/
def acceptedTimes (key : String) (limit : Nat) (w : Int) (counters : CMap)
    (ts : List Int) : List Int :=
  (runLimiter key limit w counters ts).filterMap
    (fun p => if p.2 then some p.1 else none)

/-- Like `runLimiter`, but each accepted request is tagged with the
window-start timestamp of the window it was counted in. -/
def runTagged (key : String) (limit : Nat) (w : Int) :
    CMap → List Int → List (Int × Int)
  | _, [] => []
  | counters, t :: ts =>
    let r := checkRateLimit counters key limit w t
    let rest := runTagged key limit w r.2 ts
    if r.1 then (t, ((alookup r.2 key).getD (0, t)).2) :: rest else rest

/-- How many more requests the limiter may still accept into the fixed
window starting at `w`, given the key's current counter entry. -/
def allowW (limit : Nat) (w : Int) (e : Option (Nat × Int)) : Nat :=
  match e with
  | none => limit
  | some (c, ws) => if ws = w then limit - c else if ws > w then 0 else limit

theorem filter_cons_tag (a b w : Int) (l : List (Int × Int)) :
    (((a, b) :: l).filter (fun q => decide (q.2 = w))).length
      = (if b = w then 1 else 0) + (l.filter (fun q => decide (q.2 = w))).length := by
  by_cases h : b = w <;> simp [List.filter_cons, h, Nat.add_comm]

theorem allowW_some (L : Nat) (w : Int) (c : Nat) (ws : Int) :
    allowW L w (some (c, ws)) = if ws = w then L - c else if ws > w then 0 else L := rfl

theorem runTagged_window_bound (key : String) (L : Nat) (W w : Int)
    (hL : 1 ≤ L) (hW : 0 ≤ W) :
    ∀ (ts : List Int) (s : CMap),
      List.Pairwise (· ≤ ·) ts →
      (∀ c ws, alookup s key = some (c, ws) → ∀ t ∈ ts, ws ≤ t) →
      ((runTagged key L W s ts).filter (fun p => decide (p.2 = w))).length
        ≤ allowW L w (alookup s key) := by
  intro ts
  induction ts with
  | nil =>
    intro s _ _
    simp [runTagged]
  | cons t ts' ih =>
    intro s hsort hlo
    have hsort' : List.Pairwise (· ≤ ·) ts' := hsort.tail
    have hhead : ∀ t' ∈ ts', t ≤ t' := by
      intro t' ht'
      exact List.rel_of_pairwise_cons hsort ht'
    cases he : alookup s key with
    | none =>
      have hnr : ¬ (t - t > W) := by omega
      have hnc : ¬ ((0 : Nat) ≥ L) := by omega
      have hrun : runTagged key L W s (t :: ts')
          = (t, t) :: runTagged key L W (aset s key (1, t)) ts' := by
        simp [runTagged, checkRateLimit, he, hnr, hnc, alookup_aset]
      have hlo1 : ∀ c' ws', alookup (aset s key (1, t)) key = some (c', ws') →
          ∀ t' ∈ ts', ws' ≤ t' := by
        intro c' ws' hws t' ht'
        rw [alookup_aset, if_pos rfl] at hws
        injection hws with hws
        obtain ⟨-, rfl⟩ := Prod.mk.injEq .. ▸ hws
        exact hhead t' ht'
      have ihs := ih (aset s key (1, t)) hsort' hlo1
      rw [alookup_aset, if_pos rfl, allowW_some] at ihs
      rw [hrun, filter_cons_tag]
      simp only [allowW]
      split_ifs at ihs ⊢ <;> omega
    | some cw =>
      obtain ⟨c, ws⟩ := cw
      have hlonow : ws ≤ t := hlo c ws he t (by simp)
      by_cases hreset : t - ws > W
      · have hrun : runTagged key L W s (t :: ts')
            = (t, t) :: runTagged key L W (aset s key (1, t)) ts' := by
          simp [runTagged, checkRateLimit, he, hreset, alookup_aset]
        have hlo1 : ∀ c' ws', alookup (aset s key (1, t)) key = some (c', ws') →
            ∀ t' ∈ ts', ws' ≤ t' := by
          intro c' ws' hws t' ht'
          rw [alookup_aset, if_pos rfl] at hws
          injection hws with hws
          obtain ⟨-, rfl⟩ := Prod.mk.injEq .. ▸ hws
          exact hhead t' ht'
        have ihs := ih (aset s key (1, t)) hsort' hlo1
        rw [alookup_aset, if_pos rfl, allowW_some] at ihs
        rw [hrun, filter_cons_tag, allowW_some]
        split_ifs at ihs ⊢ <;> omega
      · by_cases hc : c ≥ L
        · have hrun : runTagged key L W s (t :: ts') = runTagged key L W s ts' := by
            simp [runTagged, checkRateLimit, he, hreset, hc]
          rw [hrun]
          have ihs := ih s hsort'
            (fun c' ws' hws t' ht' => hlo c' ws' hws t' (by simp [ht']))
          rw [he] at ihs
          exact ihs
        · have hrun : runTagged key L W s (t :: ts')
              = (t, ws) :: runTagged key L W (aset s key (c + 1, ws)) ts' := by
            simp [runTagged, checkRateLimit, he, hreset, hc, alookup_aset]
          have hlo1 : ∀ c' ws', alookup (aset s key (c + 1, ws)) key = some (c', ws') →
              ∀ t' ∈ ts', ws' ≤ t' := by
            intro c' ws' hws t' ht'
            rw [alookup_aset, if_pos rfl] at hws
            injection hws with hws
            obtain ⟨-, rfl⟩ := Prod.mk.injEq .. ▸ hws
            exact hlo c ws he t' (by simp [ht'])
          have ihs := ih (aset s key (c + 1, ws)) hsort' hlo1
          rw [alookup_aset, if_pos rfl, allowW_some] at ihs
          rw [hrun, filter_cons_tag, allowW_some]
          split_ifs at ihs ⊢ <;> omega

theorem runTagged_in_window (key : String) (L : Nat) (W : Int)
    (hL : 1 ≤ L) (hW : 0 ≤ W) :
    ∀ (ts : List Int) (s : CMap),
      List.Pairwise (· ≤ ·) ts →
      (∀ c ws, alookup s key = some (c, ws) → ∀ t ∈ ts, ws ≤ t) →
      ∀ p ∈ runTagged key L W s ts, p.2 ≤ p.1 ∧ p.1 - p.2 ≤ W := by
  intro ts
  induction ts with
  | nil =>
    intro s _ _ p hp
    simp [runTagged] at hp
  | cons t ts' ih =>
    intro s hsort hlo p hp
    have hsort' : List.Pairwise (· ≤ ·) ts' := hsort.tail
    have hhead : ∀ t' ∈ ts', t ≤ t' := by
      intro t' ht'
      exact List.rel_of_pairwise_cons hsort ht'
    cases he : alookup s key with
    | none =>
      have hnr : ¬ (t - t > W) := by omega
      have hnc : ¬ ((0 : Nat) ≥ L) := by omega
      have hrun : runTagged key L W s (t :: ts')
          = (t, t) :: runTagged key L W (aset s key (1, t)) ts' := by
        simp [runTagged, checkRateLimit, he, hnr, hnc, alookup_aset]
      have hlo1 : ∀ c' ws', alookup (aset s key (1, t)) key = some (c', ws') →
          ∀ t' ∈ ts', ws' ≤ t' := by
        intro c' ws' hws t' ht'
        rw [alookup_aset, if_pos rfl] at hws
        injection hws with hws
        obtain ⟨-, rfl⟩ := Prod.mk.injEq .. ▸ hws
        exact hhead t' ht'
      rw [hrun] at hp
      rcases List.mem_cons.mp hp with rfl | hp'
      · exact ⟨le_refl t, by omega⟩
      · exact ih (aset s key (1, t)) hsort' hlo1 p hp'
    | some cw =>
      obtain ⟨c, ws⟩ := cw
      have hlonow : ws ≤ t := hlo c ws he t (by simp)
      by_cases hreset : t - ws > W
      · have hrun : runTagged key L W s (t :: ts')
            = (t, t) :: runTagged key L W (aset s key (1, t)) ts' := by
          simp [runTagged, checkRateLimit, he, hreset, alookup_aset]
        have hlo1 : ∀ c' ws', alookup (aset s key (1, t)) key = some (c', ws') →
            ∀ t' ∈ ts', ws' ≤ t' := by
          intro c' ws' hws t' ht'
          rw [alookup_aset, if_pos rfl] at hws
          injection hws with hws
          obtain ⟨-, rfl⟩ := Prod.mk.injEq .. ▸ hws
          exact hhead t' ht'
        rw [hrun] at hp
        rcases List.mem_cons.mp hp with rfl | hp'
        · exact ⟨le_refl t, by omega⟩
        · exact ih (aset s key (1, t)) hsort' hlo1 p hp'
      · by_cases hc : c ≥ L
        · have hrun : runTagged key L W s (t :: ts') = runTagged key L W s ts' := by
            simp [runTagged, checkRateLimit, he, hreset, hc]
          rw [hrun] at hp
          exact ih s hsort'
            (fun c' ws' hws t' ht' => hlo c' ws' hws t' (by simp [ht'])) p hp
        · have hrun : runTagged key L W s (t :: ts')
              = (t, ws) :: runTagged key L W (aset s key (c + 1, ws)) ts' := by
            simp [runTagged, checkRateLimit, he, hreset, hc, alookup_aset]
          have hlo1 : ∀ c' ws', alookup (aset s key (c + 1, ws)) key = some (c', ws') →
              ∀ t' ∈ ts', ws' ≤ t' := by
            intro c' ws' hws t' ht'
            rw [alookup_aset, if_pos rfl] at hws
            injection hws with hws
            obtain ⟨-, rfl⟩ := Prod.mk.injEq .. ▸ hws
            exact hlo c ws he t' (by simp [ht'])
          rw [hrun] at hp
          rcases List.mem_cons.mp hp with rfl | hp'
          · exact ⟨hlonow, by omega⟩
          · exact ih (aset s key (c + 1, ws)) hsort' hlo1 p hp'

theorem runTagged_fst (key : String) (L : Nat) (W : Int) :
    ∀ (ts : List Int) (s : CMap),
      (runTagged key L W s ts).map Prod.fst = acceptedTimes key L W s ts := by
  intro ts
  induction ts with
  | nil =>
    intro s
    rfl
  | cons t ts' ih =>
    intro s
    have ih' := ih (checkRateLimit s key L W t).2
    simp only [acceptedTimes] at ih' ⊢
    by_cases hacc : (checkRateLimit s key L W t).1 = true <;>
      simp [runTagged, runLimiter, hacc, ih']

/-- C6 counterexample: limit 2, window 60 s, request times 0, 59, 61, 62.
All four requests are accepted (the fixed window resets at t = 61), and the
interval [59, 119] — a window of duration 60 ≤ W — contains three accepted
requests, exceeding the limit 2.  The fixed-window algorithm therefore does
not bound accepts within an arbitrary window of duration ≤ W by L. -/
theorem c6_sliding_window_cex :
    acceptedTimes "k" 2 60 [] [0, 59, 61, 62] = [0, 59, 61, 62] ∧
    ((acceptedTimes "k" 2 60 [] [0, 59, 61, 62]).filter
        (fun t => decide (59 ≤ t ∧ t ≤ 59 + 60))).length = 3 ∧
    ¬ ((3 : Nat) ≤ 2) := by
  refine ⟨by decide, by decide, by decide⟩

/-- C6 (amended): the counter update follows the fixed-window algorithm as
stated, and consequently at most L requests are accepted per fixed window:
tagging each accepted request with the `window_start` of the window that
counted it, at most L accepted requests carry any given tag, every accepted
request lies within `[window_start, window_start + W]` of its tag, and the
tagged run's request times are exactly the accepted times.  (In an
arbitrarily placed interval of duration ≤ W, up to 2·L requests may be
accepted — see the counterexample.) -/
theorem c6_fixed_window_bound (key : String) (L : Nat) (W w : Int)
    (ts : List Int) (p : Int × Int)
    (hL : 1 ≤ L) (hW : 0 ≤ W) (hsort : List.Pairwise (· ≤ ·) ts)
    (hp : p ∈ runTagged key L W [] ts) :
    ((runTagged key L W [] ts).filter (fun q => decide (q.2 = w))).length ≤ L ∧
    (p.2 ≤ p.1 ∧ p.1 - p.2 ≤ W) ∧
    (runTagged key L W [] ts).map Prod.fst = acceptedTimes key L W [] ts := by
  have hlo : ∀ c ws, alookup ([] : CMap) key = some (c, ws) → ∀ t ∈ ts, ws ≤ t := by
    intro c ws h
    simp [alookup] at h
  refine ⟨?_, ?_, ?_⟩
  · have := runTagged_window_bound key L W w hL hW ts [] hsort hlo
    simpa [allowW, alookup] using this
  · exact runTagged_in_window key L W hL hW ts [] hsort hlo p hp
  · exact runTagged_fst key L W ts []

/-- Witness for C6 at the concrete trace of the counterexample: within the
window tagged 61 only 2 requests are accepted, and the accepted request
(61, 61) lies inside its window. -/
theorem c6_fixed_window_bound_witness :
    ((runTagged "k" 2 60 [] [0, 59, 61, 62]).filter
        (fun q => decide (q.2 = 61))).length ≤ 2 ∧
    (((61 : Int), (61 : Int)).2 ≤ ((61 : Int), (61 : Int)).1 ∧
      ((61 : Int), (61 : Int)).1 - ((61 : Int), (61 : Int)).2 ≤ 60) ∧
    (runTagged "k" 2 60 [] [0, 59, 61, 62]).map Prod.fst
      = acceptedTimes "k" 2 60 [] [0, 59, 61, 62] :=
  c6_fixed_window_bound "k" 2 60 61 [0, 59, 61, 62] (61, 61)
    (by decide) (by decide) (by decide) (by decide)

/-! ### x402 payment middleware (xy_market.middleware.x402)

External collaborators — the x402 helper library's chain-id table and token
metadata (`NETWORK_TO_ID`, `get_token_name`, `get_token_version`), base64
encoding, and payment-header JSON decoding — are parameters of the model
(`X402Externals`); the facilitator's verify/settle RPCs are oracles
(`Facilitator`).  `findMatchingPaymentRequirements` is x402 library code
not under src/.  Modelled from the spec: select the requirement whose
`network` equals the payload's network. -/

/-- A pricing option `(chain_id, token_address, token_amount)`
(xy_market.config.PaymentOption). -/
structure PaymentOption where
  chain_id : Nat
  token_address : String
  token_amount : Nat
deriving DecidableEq

/-- The wire form of one payment option (x402 `PaymentRequirements`). -/
structure PaymentRequirements where
  scheme : String
  network : String
  asset : String
  max_amount_required : String
  resource : String
  description : String
  mime_type : String
  pay_to : String
  max_timeout_seconds : Nat
  extra_name : String
  extra_version : String
deriving DecidableEq

/-- The part of the opaque payment attestation the middleware reads. -/
structure PaymentPayload where
  network : String
deriving DecidableEq

/-- Facilitator verify result. -/
structure VerifyResponse where
  is_valid : Bool
  invalid_reason : Option String
deriving DecidableEq

/-- Facilitator settle result; `payloadJson` stands for
`model_dump_json(by_alias=True)` of the settlement. -/
structure SettleResponse where
  success : Bool
  error_reason : Option String
  payloadJson : String
deriving DecidableEq

/-- Facilitator oracles: `verifyAttempt n` is the outcome of the n-th
verify attempt (`Except.error` = transport error, i.e. `httpx.HTTPError`);
`settle` is the settlement RPC outcome (`Except.error` = raised). -/
structure Facilitator where
  verifyAttempt : Nat → PaymentPayload → PaymentRequirements → Except Unit VerifyResponse
  settle : PaymentPayload → PaymentRequirements → Except Unit SettleResponse

/-- External helpers of the middleware, kept as parameters. -/
structure X402Externals where
  idToNetworkName : Nat → Option String
  getTokenName : String → String → String
  getTokenVersion : String → String → String
  b64encode : String → String
  parsePaymentHeader : String → Option PaymentPayload
  x402Version : Nat

/-- An HTTP response body: a raw downstream body, or the structured 402
challenge `{x402Version, accepts, error}`. -/
inductive RespBody : Type
  | raw (bytes : String) : RespBody
  | challenge (ver : Nat) (accepts : List PaymentRequirements) (error : String) : RespBody
deriving DecidableEq

/-- An HTTP response. -/
structure HttpResponse where
  status : Nat
  body : RespBody
  hdrs : List (String × String)
deriving DecidableEq

/-- The middleware's observable outcome for one request. -/
structure DispatchOut where
  resp : HttpResponse
  handlerCalled : Bool
  settleCalled : Bool
deriving DecidableEq

/-- The request attributes the middleware reads (operation id already
resolved by `_get_operation_id`). -/
structure RequestInfo where
  operationId : Option String
  hdrXPayment : Option String
  hdrXPaymentProof : Option String
  url : String
  path : String
  contentType : String

/-- Python truthiness of an optional string (`None` and `""` are falsy). -/
def pyTruthyS : Option String → Bool
  | none => false
  | some s => s != ""

/-- Python `a or b` on optional header values. -/
def pyOrStr (a b : Option String) : Option String :=
  if pyTruthyS a then a else b

/-- Python `s or default` for an optional reason string. -/
def pyOrStrD (o : Option String) (d : String) : String :=
  if pyTruthyS o then o.getD "" else d

/-- `X402PaymentMiddleware._build_payment_requirements`: one requirement
per option whose chain id the network table knows; unknown chain ids are
skipped. -/
def buildPaymentRequirements (ext : X402Externals) (payee : String)
    (r : RequestInfo) (options : List PaymentOption) : List PaymentRequirements :=
  options.filterMap (fun o =>
    (ext.idToNetworkName o.chain_id).map (fun networkName =>
      { scheme := "exact"
        network := networkName
        asset := o.token_address
        max_amount_required := toString o.token_amount
        resource := r.url
        description := "Payment for " ++ r.path
        mime_type := r.contentType
        pay_to := payee
        max_timeout_seconds := 60
        extra_name := ext.getTokenName (toString o.chain_id) o.token_address
        extra_version := ext.getTokenVersion (toString o.chain_id) o.token_address }))

/-- `_create_402_response`. -/
def mk402 (ext : X402Externals) (reqs : List PaymentRequirements)
    (error : String) : HttpResponse :=
  { status := 402, body := RespBody.challenge ext.x402Version reqs error, hdrs := [] }

/-- Modelled from the spec: `find_matching_payment_requirements` (x402
library, not under src/) selects the requirement whose `network` equals
the payload's network. -/
def findMatchingPaymentRequirements (reqs : List PaymentRequirements)
    (p : PaymentPayload) : Option PaymentRequirements :=
  reqs.find? (fun r => r.network == p.network)

/-- `_verify_with_retry`: try attempts `attempt, attempt+1, ...` while
`remaining` is positive; the first non-transport outcome is returned,
otherwise the last error is re-raised. -/
def firstVerifySuccess (f : Nat → Except Unit VerifyResponse) :
    Nat → Nat → Except Unit VerifyResponse
  | _, 0 => Except.error ()
  | attempt, remaining + 1 =>
    match f attempt with
    | Except.ok v => Except.ok v
    | Except.error _ => firstVerifySuccess f (attempt + 1) remaining

/-- `_verify_with_retry` with `max_retries` attempts starting at 1. -/
def verifyWithRetry (f : Nat → Except Unit VerifyResponse) (maxRetries : Nat) :
    Except Unit VerifyResponse :=
  firstVerifySuccess f 1 maxRetries

/-- The response headers after the settlement step: on settle success the
`X-PAYMENT-RESPONSE` header is attached (base64 of the settlement JSON),
otherwise the headers are untouched. -/
def settledHdrs (e : Except Unit SettleResponse) (b64 : String → String)
    (hs : List (String × String)) : List (String × String) :=
  match e with
  | Except.ok sr =>
    if sr.success then aset hs "X-PAYMENT-RESPONSE" (b64 sr.payloadJson) else hs
  | Except.error _ => hs

/-- The `X-PAYMENT-RESPONSE` value the settlement step produces, if any. -/
def settleHeaderVal (e : Except Unit SettleResponse) (b64 : String → String) :
    Option String :=
  match e with
  | Except.ok sr => if sr.success then some (b64 sr.payloadJson) else none
  | Except.error _ => none

/-- `X402PaymentMiddleware.dispatch`: the per-request state machine.  The
downstream handler's response is an input (`handler`); `handlerCalled` and
`settleCalled` record which effects happened. -/
def dispatch (ext : X402Externals) (facilitator : Option Facilitator)
    (toolPricing : List (String × List PaymentOption)) (payee : String)
    (r : RequestInfo) (handler : HttpResponse) : DispatchOut :=
  match facilitator with
  | none => ⟨handler, true, false⟩
  | some fac =>
    let pricingOptions : Option (List PaymentOption) :=
      if pyTruthyS r.operationId then alookup toolPricing (r.operationId.getD "")
      else none
    let opts := pricingOptions.getD []
    if ¬ (pyTruthyS r.operationId = true) ∨ opts.isEmpty = true then
      ⟨handler, true, false⟩
    else
      let paymentRequirements := buildPaymentRequirements ext payee r opts
      let paymentHeader := pyOrStr r.hdrXPayment r.hdrXPaymentProof
      if ¬ (pyTruthyS paymentHeader = true) then
        ⟨mk402 ext paymentRequirements "No X-PAYMENT header provided", false, false⟩
      else
        match ext.parsePaymentHeader (paymentHeader.getD "") with
        | none =>
          ⟨mk402 ext paymentRequirements "Invalid payment header format", false, false⟩
        | some payment =>
          match findMatchingPaymentRequirements paymentRequirements payment with
          | none =>
            ⟨mk402 ext paymentRequirements "No matching payment requirements found",
              false, false⟩
          | some selectedReq =>
            match verifyWithRetry (fun att => fac.verifyAttempt att payment selectedReq) 5 with
            | Except.error _ =>
              ⟨mk402 ext paymentRequirements
                "Payment verification failed; please try again later.", false, false⟩
            | Except.ok vr =>
              if ¬ (vr.is_valid = true) then
                ⟨mk402 ext paymentRequirements
                  ("Invalid payment: " ++ pyOrStrD vr.invalid_reason "Unknown reason"),
                  false, false⟩
              else
                if 200 ≤ handler.status ∧ handler.status < 300 then
                  ⟨{ handler with
                      hdrs := settledHdrs (fac.settle payment selectedReq)
                        ext.b64encode handler.hdrs }, true, true⟩
                else ⟨handler, true, false⟩

theorem alookup_settledHdrs (e : Except Unit SettleResponse) (b64 : String → String)
    (hs : List (String × String))
    (hclean : alookup hs "X-PAYMENT-RESPONSE" = none) :
    alookup (settledHdrs e b64 hs) "X-PAYMENT-RESPONSE" = settleHeaderVal e b64 := by
  cases e with
  | ok sr =>
    by_cases hsuc : sr.success = true <;>
      simp [settledHdrs, settleHeaderVal, hsuc, alookup_aset, hclean]
  | error u => simp [settledHdrs, settleHeaderVal, hclean]

/-- A concrete externals instance: only chain id 8453 (`base`) is known to
the network table. -/
def cexExt : X402Externals :=
  { idToNetworkName := fun n => if n = 8453 then some "base" else none
    getTokenName := fun _ _ => "USDC"
    getTokenVersion := fun _ _ => "2"
    b64encode := fun str => "b64:" ++ str
    parsePaymentHeader := fun str => if str = "hdr" then some { network := "base" } else none
    x402Version := 1 }

/-- A facilitator whose verify accepts and whose settle reports failure. -/
def cexFacSettleFail : Facilitator :=
  { verifyAttempt := fun _ _ _ => Except.ok { is_valid := true, invalid_reason := none }
    settle := fun _ _ =>
      Except.ok { success := false, error_reason := some "Insufficient funds", payloadJson := "sj" } }

/-- A facilitator whose verify accepts and whose settle succeeds. -/
def cexFacSettleOk : Facilitator :=
  { verifyAttempt := fun _ _ _ => Except.ok { is_valid := true, invalid_reason := none }
    settle := fun _ _ =>
      Except.ok { success := true, error_reason := none, payloadJson := "sjson" } }

/-- A priced request without payment headers. -/
def cexReq402 : RequestInfo :=
  { operationId := some "op1"
    hdrXPayment := none
    hdrXPaymentProof := none
    url := "http://seller/hybrid/forecast"
    path := "/hybrid/forecast"
    contentType := "application/json" }

/-- A priced request carrying a payment header. -/
def cexReqPaid : RequestInfo :=
  { cexReq402 with hdrXPayment := some "hdr" }

/-- A pricing option on the known chain 8453. -/
def cexOptsKnown : List PaymentOption :=
  [{ chain_id := 8453, token_address := "0x833", token_amount := 1000 }]

/-- A pricing option on an unknown chain. -/
def cexOptsUnknown : List PaymentOption :=
  [{ chain_id := 999999, token_address := "0x833", token_amount := 1000 }]

/-- Pricing table mapping `op1` to the known-chain option. -/
def cexPricingKnown : List (String × List PaymentOption) := [("op1", cexOptsKnown)]

/-- Pricing table mapping `op1` to the unknown-chain option. -/
def cexPricingUnknown : List (String × List PaymentOption) := [("op1", cexOptsUnknown)]

/-- A 200 downstream handler response. -/
def okHandler : HttpResponse := { status := 200, body := RespBody.raw "ok", hdrs := [] }

/-- C4 counterexample: a priced operation whose only pricing option has a
chain id the network table does not know.  Without a payment header the
middleware still returns 402 with the right error string, but the `accepts`
list is empty — `_build_payment_requirements` skipped the option — so the
body does not contain at least one PaymentRequirement. -/
theorem c4_accepts_empty_cex :
    (dispatch cexExt (some cexFacSettleFail) cexPricingUnknown "0xPayee" cexReq402
        okHandler).resp
      = { status := 402, body := RespBody.challenge 1 [] "No X-PAYMENT header provided",
          hdrs := [] } ∧
    buildPaymentRequirements cexExt "0xPayee" cexReq402 cexOptsUnknown = [] ∧
    (dispatch cexExt (some cexFacSettleFail) cexPricingUnknown "0xPayee" cexReq402
        okHandler).handlerCalled = false := by
  refine ⟨by decide, by decide, by decide⟩

/-- C4 (amended): with a facilitator configured, a request to a priced
operation carrying neither `X-PAYMENT` nor `X-Payment-Proof` yields 402
with error "No X-PAYMENT header provided" and the built requirements as
`accepts`, without invoking the downstream handler; `accepts` holds one
entry per pricing option with a known chain id, hence is non-empty
whenever at least one option's chain id is known (but may be empty
otherwise — see the counterexample). -/
theorem c4_no_header_402 (ext : X402Externals) (fac : Facilitator)
    (toolPricing : List (String × List PaymentOption)) (payee : String)
    (r : RequestInfo) (handler : HttpResponse) (oid : String)
    (opts : List PaymentOption)
    (hop : r.operationId = some oid) (hoid : oid ≠ "")
    (hlookup : alookup toolPricing oid = some opts) (hopts : opts ≠ [])
    (hh1 : r.hdrXPayment = none) (hh2 : r.hdrXPaymentProof = none) :
    dispatch ext (some fac) toolPricing payee r handler
      = ⟨mk402 ext (buildPaymentRequirements ext payee r opts)
          "No X-PAYMENT header provided", false, false⟩ ∧
    (dispatch ext (some fac) toolPricing payee r handler).resp.status = 402 ∧
    (dispatch ext (some fac) toolPricing payee r handler).handlerCalled = false ∧
    (opts.any (fun o => (ext.idToNetworkName o.chain_id).isSome) = true →
      buildPaymentRequirements ext payee r opts ≠ []) := by
  have hmain : dispatch ext (some fac) toolPricing payee r handler
      = ⟨mk402 ext (buildPaymentRequirements ext payee r opts)
          "No X-PAYMENT header provided", false, false⟩ := by
    cases opts with
    | nil => exact absurd rfl hopts
    | cons o0 os =>
      simp [dispatch, hop, hlookup, pyTruthyS, pyOrStr, hh1, hh2, hoid]
  refine ⟨hmain, by simp [hmain, mk402], by simp [hmain], ?_⟩
  intro hany hnil
  rw [List.any_eq_true] at hany
  obtain ⟨o, ho, hsome⟩ := hany
  rw [buildPaymentRequirements, List.filterMap_eq_nil_iff] at hnil
  have hnone := hnil o ho
  rw [Option.map_eq_none'] at hnone
  rw [hnone] at hsome
  exact absurd hsome (by simp)

/-- Witness for C4 at a priced operation on the known chain. -/
theorem c4_no_header_402_witness :
    (dispatch cexExt (some cexFacSettleFail) cexPricingKnown "0xPayee" cexReq402
        okHandler).resp.status = 402 ∧
    (dispatch cexExt (some cexFacSettleFail) cexPricingKnown "0xPayee" cexReq402
        okHandler).handlerCalled = false ∧
    buildPaymentRequirements cexExt "0xPayee" cexReq402 cexOptsKnown ≠ [] :=
  ⟨(c4_no_header_402 cexExt cexFacSettleFail cexPricingKnown "0xPayee" cexReq402
      okHandler "op1" cexOptsKnown rfl (by decide) rfl (by decide) rfl rfl).2.1,
    (c4_no_header_402 cexExt cexFacSettleFail cexPricingKnown "0xPayee" cexReq402
      okHandler "op1" cexOptsKnown rfl (by decide) rfl (by decide) rfl rfl).2.2.1,
    (c4_no_header_402 cexExt cexFacSettleFail cexPricingKnown "0xPayee" cexReq402
      okHandler "op1" cexOptsKnown rfl (by decide) rfl (by decide) rfl rfl).2.2.2
      (by decide)⟩

/-- C5 counterexample: verify accepts, the downstream handler returns 200,
settlement is attempted but reports failure — the response then carries no
`X-PAYMENT-RESPONSE` header (the claim asserts it always does in this
scenario); status and body are unchanged. -/
theorem c5_no_header_on_settle_failure_cex :
    (dispatch cexExt (some cexFacSettleFail) cexPricingKnown "0xPayee" cexReqPaid
        okHandler).settleCalled = true ∧
    (dispatch cexExt (some cexFacSettleFail) cexPricingKnown "0xPayee" cexReqPaid
        okHandler).resp = okHandler ∧
    alookup (dispatch cexExt (some cexFacSettleFail) cexPricingKnown "0xPayee" cexReqPaid
        okHandler).resp.hdrs "X-PAYMENT-RESPONSE" = none := by
  refine ⟨by decide, by decide, by decide⟩

/-- C5 (amended): when verify reports valid and the downstream status is in
[200, 300), the middleware calls settle after the handler; the response's
status and body are exactly the handler's (even when settlement fails or
raises), and the `X-PAYMENT-RESPONSE` header is present — carrying the
base64 of the settlement JSON — exactly when settlement succeeded. -/
theorem c5_settle_frame (ext : X402Externals) (fac : Facilitator)
    (toolPricing : List (String × List PaymentOption)) (payee : String)
    (r : RequestInfo) (handler : HttpResponse) (oid hstr : String)
    (opts : List PaymentOption) (payment : PaymentPayload)
    (selectedReq : PaymentRequirements) (vr : VerifyResponse)
    (hop : r.operationId = some oid) (hoid : oid ≠ "")
    (hlookup : alookup toolPricing oid = some opts) (hopts : opts ≠ [])
    (hhdr : pyOrStr r.hdrXPayment r.hdrXPaymentProof = some hstr) (hhs : hstr ≠ "")
    (hparse : ext.parsePaymentHeader hstr = some payment)
    (hmatch : findMatchingPaymentRequirements
        (buildPaymentRequirements ext payee r opts) payment = some selectedReq)
    (hverify : verifyWithRetry
        (fun att => fac.verifyAttempt att payment selectedReq) 5 = Except.ok vr)
    (hvalid : vr.is_valid = true)
    (h2xx : 200 ≤ handler.status ∧ handler.status < 300)
    (hclean : alookup handler.hdrs "X-PAYMENT-RESPONSE" = none) :
    (dispatch ext (some fac) toolPricing payee r handler).handlerCalled = true ∧
    (dispatch ext (some fac) toolPricing payee r handler).settleCalled = true ∧
    (dispatch ext (some fac) toolPricing payee r handler).resp.status = handler.status ∧
    (dispatch ext (some fac) toolPricing payee r handler).resp.body = handler.body ∧
    (dispatch ext (some fac) toolPricing payee r handler).resp.hdrs
      = settledHdrs (fac.settle payment selectedReq) ext.b64encode handler.hdrs ∧
    alookup (dispatch ext (some fac) toolPricing payee r handler).resp.hdrs
        "X-PAYMENT-RESPONSE"
      = settleHeaderVal (fac.settle payment selectedReq) ext.b64encode := by
  have hmain : dispatch ext (some fac) toolPricing payee r handler
      = ⟨{ handler with
            hdrs := settledHdrs (fac.settle payment selectedReq)
              ext.b64encode handler.hdrs }, true, true⟩ := by
    cases opts with
    | nil => exact absurd rfl hopts
    | cons o0 os =>
      simp [dispatch, hop, hlookup, pyTruthyS, hoid, hhdr, hhs, hparse, hmatch,
        hverify, hvalid, h2xx]
  rw [hmain]
  exact ⟨rfl, rfl, rfl, rfl, rfl,
    alookup_settledHdrs (fac.settle payment selectedReq) ext.b64encode handler.hdrs hclean⟩

/-- The payment requirement built for `cexOptsKnown`. -/
def cexSelReq : PaymentRequirements :=
  { scheme := "exact"
    network := "base"
    asset := "0x833"
    max_amount_required := "1000"
    resource := "http://seller/hybrid/forecast"
    description := "Payment for /hybrid/forecast"
    mime_type := "application/json"
    pay_to := "0xPayee"
    max_timeout_seconds := 60
    extra_name := "USDC"
    extra_version := "2" }

/-- Witness for C5 at a successful settlement: the header is attached. -/
theorem c5_settle_frame_witness :
    (dispatch cexExt (some cexFacSettleOk) cexPricingKnown "0xPayee" cexReqPaid
        okHandler).handlerCalled = true ∧
    (dispatch cexExt (some cexFacSettleOk) cexPricingKnown "0xPayee" cexReqPaid
        okHandler).settleCalled = true ∧
    (dispatch cexExt (some cexFacSettleOk) cexPricingKnown "0xPayee" cexReqPaid
        okHandler).resp.status = okHandler.status ∧
    (dispatch cexExt (some cexFacSettleOk) cexPricingKnown "0xPayee" cexReqPaid
        okHandler).resp.body = okHandler.body ∧
    (dispatch cexExt (some cexFacSettleOk) cexPricingKnown "0xPayee" cexReqPaid
        okHandler).resp.hdrs
      = settledHdrs (cexFacSettleOk.settle { network := "base" } cexSelReq)
          cexExt.b64encode okHandler.hdrs ∧
    alookup (dispatch cexExt (some cexFacSettleOk) cexPricingKnown "0xPayee" cexReqPaid
        okHandler).resp.hdrs "X-PAYMENT-RESPONSE"
      = settleHeaderVal (cexFacSettleOk.settle { network := "base" } cexSelReq)
          cexExt.b64encode :=
  c5_settle_frame cexExt cexFacSettleOk cexPricingKnown "0xPayee" cexReqPaid okHandler
    "op1" "hdr" cexOptsKnown { network := "base" } cexSelReq
    { is_valid := true, invalid_reason := none }
    rfl (by decide) rfl (by decide) rfl (by decide) (by decide) (by decide)
    rfl rfl (by decide) rfl

/-! ### Marketplace registration (marketplace.repository / marketplace.router) -/

/-- `AgentProfile` (xy_market.models.agent). Timestamps are `Int`. -/
structure AgentProfile where
  agent_id : String
  agent_name : String
  base_url : String
  description : String
  tags : List String
  version : Nat
  registered_at : Int
  last_updated_at : Int
deriving DecidableEq

/-- The agents dict, keyed by `agent_id`; values iterate in insertion
order. -/
abbrev AgentMap : Type := List (String × AgentProfile)

/-- The duplicate scan of `JsonAgentRepository.create_agent`: iterate the
stored profiles; raise on a `base_url` collision (with either message), or
on a non-empty `agent_name` collision with a different `agent_id`. -/
def firstConflict : AgentMap → AgentProfile → Option String
  | [], _ => none
  | (_, ex) :: rest, p =>
    if ex.base_url = p.base_url then
      if ex.agent_id = p.agent_id then some "already registered with this URL"
      else some "base URL already registered by another agent"
    else if p.agent_name ≠ "" ∧ ex.agent_name = p.agent_name ∧ ex.agent_id ≠ p.agent_id then
      some "agent name already taken"
    else firstConflict rest p

/-- `JsonAgentRepository.create_agent`: scan for collisions, then reject a
duplicate `agent_id`, else insert the new profile. -/
def createAgent (m : AgentMap) (p : AgentProfile) : Except String AgentMap :=
  match firstConflict m p with
  | some msg => Except.error msg
  | none =>
    if (alookup m p.agent_id).isSome then Except.error "agent already registered"
    else Except.ok (m ++ [(p.agent_id, p)])

/-- The router's view (`register_agent`): 200 with the new store on
success, 409 with the store unchanged on `AgentAlreadyRegisteredError`. -/
def registerAgent (m : AgentMap) (p : AgentProfile) : Nat × AgentMap :=
  match createAgent m p with
  | Except.ok m' => (200, m')
  | Except.error _ => (409, m)

/-- Some stored profile has the candidate's `base_url`. -/
def baseUrlTaken (m : AgentMap) (p : AgentProfile) : Bool :=
  m.any (fun e => e.2.base_url == p.base_url)

/-- The candidate's `agent_name` is non-empty and some stored profile has
it. -/
def nameTaken (m : AgentMap) (p : AgentProfile) : Bool :=
  (p.agent_name != "") && m.any (fun e => e.2.agent_name == p.agent_name)

/-- Some stored profile has the candidate's `agent_id`. -/
def idTaken (m : AgentMap) (p : AgentProfile) : Bool :=
  m.any (fun e => e.2.agent_id == p.agent_id)

/-- The dict invariant: every entry is keyed by its profile's `agent_id`. -/
def wfAgents (m : AgentMap) : Bool :=
  m.all (fun e => e.1 == e.2.agent_id)

theorem alookup_eq_none_iff {α : Type} (m : List (String × α)) (k : String) :
    alookup m k = none ↔ ∀ e ∈ m, e.1 ≠ k := by
  induction m with
  | nil => simp [alookup]
  | cons hd tl ih =>
    obtain ⟨k', v⟩ := hd
    by_cases h : k' = k <;> simp [alookup, h, ih]

theorem firstConflict_none_props (m : AgentMap) (p : AgentProfile)
    (h : firstConflict m p = none) :
    ∀ e ∈ m, e.2.base_url ≠ p.base_url ∧
      ¬ (p.agent_name ≠ "" ∧ e.2.agent_name = p.agent_name ∧
          e.2.agent_id ≠ p.agent_id) := by
  induction m with
  | nil => simp
  | cons hd tl ih =>
    obtain ⟨k, ex⟩ := hd
    by_cases h1 : ex.base_url = p.base_url
    · exfalso
      by_cases h2 : ex.agent_id = p.agent_id <;>
        simp [firstConflict, h1, h2] at h
    · by_cases h2 : p.agent_name ≠ "" ∧ ex.agent_name = p.agent_name ∧
          ex.agent_id ≠ p.agent_id
      · exfalso
        simp [firstConflict, h1, h2] at h
      · rw [firstConflict, if_neg h1, if_neg h2] at h
        intro e he
        rcases List.mem_cons.mp he with rfl | he'
        · exact ⟨h1, h2⟩
        · exact ih h e he'

theorem firstConflict_some_taken (m : AgentMap) (p : AgentProfile) (msg : String)
    (h : firstConflict m p = some msg) :
    baseUrlTaken m p = true ∨ nameTaken m p = true := by
  induction m with
  | nil => simp [firstConflict] at h
  | cons hd tl ih =>
    obtain ⟨k, ex⟩ := hd
    by_cases h1 : ex.base_url = p.base_url
    · left
      simp [baseUrlTaken, h1]
    · by_cases h2 : p.agent_name ≠ "" ∧ ex.agent_name = p.agent_name ∧
          ex.agent_id ≠ p.agent_id
      · right
        simp [nameTaken, h2.1, h2.2.1]
      · rw [firstConflict, if_neg h1, if_neg h2] at h
        rcases ih h with hb | hn
        · left
          simp [baseUrlTaken] at hb ⊢
          exact Or.inr hb
        · right
          simp [nameTaken] at hn ⊢
          exact ⟨hn.1, Or.inr hn.2⟩

theorem idTaken_alookup (m : AgentMap) (p : AgentProfile)
    (hwf : wfAgents m = true) :
    idTaken m p = true ↔ (alookup m p.agent_id).isSome = true := by
  constructor
  · intro hid
    rw [idTaken, List.any_eq_true] at hid
    obtain ⟨e, he, heq⟩ := hid
    rw [beq_iff_eq] at heq
    have hkey : e.1 = e.2.agent_id := by
      rw [wfAgents, List.all_eq_true] at hwf
      exact beq_iff_eq.mp (hwf e he)
    rw [Option.isSome_iff_ne_none]
    intro hnone
    rw [alookup_eq_none_iff] at hnone
    exact hnone e he (by rw [hkey, heq])
  · intro hsome
    rw [Option.isSome_iff_ne_none] at hsome
    have hex : ∃ e ∈ m, e.1 = p.agent_id := by
      by_contra hno
      push_neg at hno
      exact hsome ((alookup_eq_none_iff m p.agent_id).mpr hno)
    obtain ⟨e, he, hkey⟩ := hex
    rw [idTaken, List.any_eq_true]
    refine ⟨e, he, ?_⟩
    rw [beq_iff_eq]
    have : e.1 = e.2.agent_id := by
      rw [wfAgents, List.all_eq_true] at hwf
      exact beq_iff_eq.mp (hwf e he)
    rw [← this, hkey]

theorem createAgent_ok_free (m : AgentMap) (p : AgentProfile) (m' : AgentMap)
    (hwf : wfAgents m = true) (h : createAgent m p = Except.ok m') :
    baseUrlTaken m p = false ∧ nameTaken m p = false ∧ idTaken m p = false ∧
      m' = m ++ [(p.agent_id, p)] := by
  rw [createAgent] at h
  cases hfc : firstConflict m p with
  | some msg => rw [hfc] at h; exact absurd h (by simp)
  | none =>
    rw [hfc] at h
    by_cases hid : (alookup m p.agent_id).isSome = true
    · rw [if_pos hid] at h
      exact absurd h (by simp)
    · rw [if_neg hid] at h
      have hprops := firstConflict_none_props m p hfc
      have hidf : idTaken m p = false := by
        rw [← Bool.not_eq_true]
        intro hcontra
        exact hid ((idTaken_alookup m p hwf).mp hcontra)
      refine ⟨?_, ?_, hidf, by injection h with h2; exact h2.symm⟩
      · rw [← Bool.not_eq_true, baseUrlTaken, List.any_eq_true]
        rintro ⟨e, he, heq⟩
        exact (hprops e he).1 (beq_iff_eq.mp heq)
      · rw [← Bool.not_eq_true, nameTaken, Bool.and_eq_true, List.any_eq_true]
        rintro ⟨hne, e, he, heq⟩
        have hname : e.2.agent_name = p.agent_name := beq_iff_eq.mp heq
        have hpne : p.agent_name ≠ "" := bne_iff_ne.mp hne
        have hsameid : e.2.agent_id = p.agent_id := by
          by_contra hdiff
          exact (hprops e he).2 ⟨hpne, hname, hdiff⟩
        have : idTaken m p = true := by
          rw [idTaken, List.any_eq_true]
          exact ⟨e, he, beq_iff_eq.mpr hsameid⟩
        rw [this] at hidf
        exact absurd hidf (by simp)

theorem createAgent_error_taken (m : AgentMap) (p : AgentProfile) (msg : String)
    (hwf : wfAgents m = true) (h : createAgent m p = Except.error msg) :
    (baseUrlTaken m p || nameTaken m p || idTaken m p) = true := by
  rw [createAgent] at h
  cases hfc : firstConflict m p with
  | some msg2 =>
    rcases firstConflict_some_taken m p msg2 hfc with hb | hn
    · simp [hb]
    · simp [hn]
  | none =>
    rw [hfc] at h
    by_cases hid : (alookup m p.agent_id).isSome = true
    · have : idTaken m p = true := (idTaken_alookup m p hwf).mpr hid
      simp [this]
    · rw [if_neg hid] at h
      exact absurd h (by simp)

/-- The registration status characterization used by C9. -/
theorem registerAgent_status_iff (m : AgentMap) (p : AgentProfile)
    (hwf : wfAgents m = true) :
    (registerAgent m p).1 = 409 ↔
      (baseUrlTaken m p || nameTaken m p || idTaken m p) = true := by
  rw [registerAgent]
  cases hcc : createAgent m p with
  | ok m' =>
    have hfree := createAgent_ok_free m p m' hwf hcc
    simp [hfree.1, hfree.2.1, hfree.2.2.1]
  | error e =>
    have htaken := createAgent_error_taken m p e hwf hcc
    simp [htaken]

/-- C9: with a well-formed store, `POST /register` yields 409 exactly when
the `agent_id`, the `base_url`, or a non-empty `agent_name` collides with a
stored agent; rejection leaves the stored agent set unchanged; success
appends exactly the new profile; and after a 200 for `p`, any further
registration with the same `base_url` — in particular an identical repeat —
yields 409. -/
theorem c9_register_conflict (m : AgentMap) (p q : AgentProfile)
    (hwf : wfAgents m = true) :
    ((registerAgent m p).1 = 409 ↔
      (baseUrlTaken m p || nameTaken m p || idTaken m p) = true) ∧
    ((registerAgent m p).1 = 200 ∨ (registerAgent m p).1 = 409) ∧
    ((registerAgent m p).1 = 409 → (registerAgent m p).2 = m) ∧
    ((registerAgent m p).1 = 200 →
      (registerAgent m p).2 = m ++ [(p.agent_id, p)]) ∧
    ((registerAgent m p).1 = 200 → q.base_url = p.base_url →
      (registerAgent (registerAgent m p).2 q).1 = 409) := by
  refine ⟨registerAgent_status_iff m p hwf, ?_, ?_, ?_, ?_⟩
  · rw [registerAgent]
    cases createAgent m p with
    | ok m' => exact Or.inl rfl
    | error e => exact Or.inr rfl
  · intro h409
    rw [registerAgent] at h409 ⊢
    cases hcc : createAgent m p with
    | ok m' => rw [hcc] at h409; exact absurd h409 (by simp)
    | error e => rfl
  · intro h200
    rw [registerAgent] at h200 ⊢
    cases hcc : createAgent m p with
    | ok m' => exact (createAgent_ok_free m p m' hwf hcc).2.2.2
    | error e => rw [hcc] at h200; exact absurd h200 (by simp)
  · intro h200 hurl
    rw [registerAgent] at h200
    cases hcc : createAgent m p with
    | error e =>
      rw [hcc] at h200
      exact absurd h200 (by simp)
    | ok m' =>
      have hfree := createAgent_ok_free m p m' hwf hcc
      have hsnd : (registerAgent m p).2 = m ++ [(p.agent_id, p)] := by
        rw [registerAgent, hcc, hfree.2.2.2]
      rw [hsnd]
      have hwf' : wfAgents (m ++ [(p.agent_id, p)]) = true := by
        rw [wfAgents, List.all_eq_true] at hwf ⊢
        intro e he
        rcases List.mem_append.mp he with he' | he'
        · exact hwf e he'
        · rcases List.mem_singleton.mp he' with rfl
          exact beq_iff_eq.mpr rfl
      rw [registerAgent_status_iff (m ++ [(p.agent_id, p)]) q hwf']
      have hurl' : baseUrlTaken (m ++ [(p.agent_id, p)]) q = true := by
        rw [baseUrlTaken, List.any_eq_true]
        exact ⟨(p.agent_id, p), by simp, beq_iff_eq.mpr hurl.symm⟩
      simp [hurl']

/-- A concrete agent profile. -/
def cexAgent : AgentProfile :=
  { agent_id := "id-1"
    agent_name := "NewsAgent"
    base_url := "https://agent.example.com"
    description := "News retrieval agent"
    tags := []
    version := 1
    registered_at := 0
    last_updated_at := 0 }

/-- Witness for C9: registering into an empty store succeeds with 200, and
repeating the identical registration yields 409 with the store unchanged. -/
theorem c9_register_conflict_witness :
    (registerAgent [] cexAgent).1 = 200 ∧
    (registerAgent (registerAgent [] cexAgent).2 cexAgent).1 = 409 :=
  ⟨Or.resolve_right ((c9_register_conflict [] cexAgent cexAgent (by decide)).2.1)
      (fun h409 => by
        have := ((c9_register_conflict [] cexAgent cexAgent (by decide)).1).mp h409
        exact absurd this (by decide)),
    (c9_register_conflict [] cexAgent cexAgent (by decide)).2.2.2.2 (by decide) rfl⟩

end Proof
